import Mathlib

/-!
Shallow embedding of the time-series cross-validation notebook
(`TimeSeriesSolutions/Matt Solution - Notebook 3`).

Series values are modelled as rationals (`ℚ`).  The notebook works with
floating-point values; the only float-specific behaviour the notebook can hit
is `NaN` (the mean of an empty pandas Series, and `np.mean` of an empty list),
which we model explicitly as `Option.none`.  A Python `IndexError` (indexing
into an empty list) is likewise modelled as `Option.none` on the result of the
whole call.  The hard-coded horizon `24` of the notebook is generalised to a
parameter `H`, as the spec does.
-/

/-- Python slice `xs[:-m]` for `m ≥ 1`: everything before the last `m`
elements (empty when `m ≥ len(xs)`). -/
def sliceUpToNeg (xs : List α) (m : Nat) : List α :=
  xs.take (xs.length - m)

/-- Python slice `xs[-m:]`: the last `m` elements.  For `m = 0` Python reads
this as `xs[0:]`, the whole list. -/
def sliceFromNeg (xs : List α) (m : Nat) : List α :=
  if m = 0 then xs else xs.drop (xs.length - m)

/-- Python slice `xs[-a:-b]` for `a > b ≥ 1`: elements from position
`len(xs) - a` (clamped at 0) up to position `len(xs) - b` (clamped at 0). -/
def sliceNegNeg (xs : List α) (a b : Nat) : List α :=
  (xs.take (xs.length - b)).drop (xs.length - a)

/-- The notebook's CV split loop (cell "Make CV splits here"), with the
hard-coded horizon 24 generalised to `H`.  The loop index `i` runs over
`range(1, int(N/H))`; split `i` has `test = index[-H*i:-H*(i-1)]`
(`index[-H:]` for `i = 1`) and `train = index[:-H*i]`, where `index` is the
positional index `0, 1, ..., N-1`.  Each element of the result is the pair
(train index list, test index list). -/
def cv_splits (N H : Nat) : List (List Nat × List Nat) :=
  (List.range' 1 (N / H - 1)).map fun i =>
    (sliceUpToNeg (List.range N) (H * i),
     if 1 < i then sliceNegNeg (List.range N) (H * i) (H * (i - 1))
     else sliceFromNeg (List.range N) H)

/-- pandas `Series.mean()`: the arithmetic mean, which is `NaN` (modelled as
`none`) on an empty series. -/
def seriesMean (xs : List ℚ) : Option ℚ :=
  if xs.isEmpty then none else some (xs.sum / (xs.length : ℚ))

/-- The notebook's `avg_forecast(train, test)`:
`train.cases.mean() * np.ones(len(test))`.  Only the length of `test` is
used, so it is passed as `testLen`.  An entry `none` models a `NaN` entry
(an empty `train` makes the mean `NaN`, hence every entry of the returned
array `NaN`); the call itself never raises. -/
def avg_forecast (train : List ℚ) (testLen : Nat) : List (Option ℚ) :=
  List.replicate testLen (seriesMean train)

/-- The notebook's `naive_forecast(train, test)`:
`list(train.cases)[-1] * np.ones(len(test))`.  The result is `none` when
`train` is empty, modelling the `IndexError` raised by `[-1]` there. -/
def naive_forecast (train : List ℚ) (testLen : Nat) : Option (List ℚ) :=
  train.getLast?.map fun v => List.replicate testLen v

/-- The notebook's `naive_seasonal_forecast(train, test)`:
`list(train.cases)[-len(test):]`, i.e. the slice `xs[-testLen:]` of the
training values.  Total: when `len(train) < testLen` Python returns the whole
list, and `xs[-0:]` is also the whole list. -/
def naive_seasonal_forecast (train : List ℚ) (testLen : Nat) : List ℚ :=
  sliceFromNeg train testLen

/-- The value extraction `df.iloc[idx,].cases` for a list of positional
indices: the series values at those positions (all uses keep the indices in
range; `0` is a dummy for the out-of-range case). -/
def selectVals (series : List ℚ) (idx : List Nat) : List ℚ :=
  idx.map fun j => series.getD j 0

/-- The notebook's `get_rmse(pred, actual)` on `NaN`-free numeric inputs:
`res = pred - actual` elementwise, then `sqrt(sum(res**2)/len(res))`. -/
noncomputable def get_rmse (pred actual : List ℚ) : ℝ :=
  Real.sqrt
    (((((List.zipWith (fun p a => p - a) pred actual).map fun r => r * r).sum : ℚ) : ℝ) /
      ((List.zipWith (fun p a => p - a) pred actual).length : ℝ))

/-- numpy semantics of `get_rmse` when the prediction may carry `NaN`
entries: any `NaN` (`none`) entry makes the result `NaN` (`none`); otherwise
it is the numeric `get_rmse`. -/
noncomputable def get_rmse_nan (pred : List (Option ℚ)) (actual : List ℚ) : Option ℝ :=
  if pred.all fun o => o.isSome then
    some (get_rmse (pred.map fun o => o.getD 0) actual)
  else none

/-- The notebook's per-split RMSE loop for the average method (cell
"RMSE for Average Method Here"): one RMSE per CV split. -/
noncomputable def avg_rmses (series : List ℚ) (H : Nat) : List (Option ℝ) :=
  (cv_splits series.length H).map fun s =>
    get_rmse_nan (avg_forecast (selectVals series s.1) s.2.length)
      (selectVals series s.2)

/-- The notebook's per-split RMSE loop for the naive method; `none` models a
raised `IndexError` propagating out of the loop body. -/
noncomputable def naive_rmses (series : List ℚ) (H : Nat) : List (Option ℝ) :=
  (cv_splits series.length H).map fun s =>
    (naive_forecast (selectVals series s.1) s.2.length).map fun p =>
      get_rmse p (selectVals series s.2)

/-- The notebook's per-split RMSE loop for the seasonal naive method. -/
noncomputable def seasonal_rmses (series : List ℚ) (H : Nat) : List ℝ :=
  (cv_splits series.length H).map fun s =>
    get_rmse (naive_seasonal_forecast (selectVals series s.1) s.2.length)
      (selectVals series s.2)

/-- Models `np.mean` on a list of numbers: `NaN` (`none`) when the list is
empty (numpy emits a warning and returns `nan`, it does not raise). -/
noncomputable def npMean (xs : List ℝ) : Option ℝ :=
  if xs.isEmpty then none else some (xs.sum / (xs.length : ℝ))

/-- Models `np.mean` on a list whose entries may carry `NaN`. -/
noncomputable def npMeanN (xs : List (Option ℝ)) : Option ℝ :=
  if xs.all fun o => o.isSome then npMean (xs.map fun o => o.getD 0) else none

/-- The notebook's final aggregation `np.mean(avg_rmses)` for a series and a
horizon: the whole average-method pipeline of the notebook. -/
noncomputable def evaluate_avg (series : List ℚ) (H : Nat) : Option ℝ :=
  npMeanN (avg_rmses series H)

example : cv_splits 5 2 = [([0, 1, 2], [3, 4])] := by decide

example : cv_splits 7 2 = [([0, 1, 2, 3, 4], [5, 6]), ([0, 1, 2], [3, 4])] := by decide

example : cv_splits 3 2 = [] := by decide

/-! Helper lemmas. -/

theorem drop_range (n m : Nat) : (List.range n).drop m = List.range' m (n - m) := by
  apply List.ext_getElem?
  intro i
  rw [List.getElem?_drop]
  by_cases h : m + i < n
  · rw [List.getElem?_range h, List.getElem?_range' m 1 (by omega)]
    simp
  · rw [List.getElem?_eq_none (by simpa using h),
      List.getElem?_eq_none (by simp; omega)]

theorem mul_succ_le_of_le_div (N H i : Nat) (hi : i + 1 ≤ N / H) : H * i + H ≤ N :=
  calc H * i + H = H * (i + 1) := by ring
    _ ≤ H * (N / H) := Nat.mul_le_mul_left H hi
    _ ≤ N := Nat.mul_div_le N H

theorem cv_splits_eq (N H : Nat) (hH : 1 ≤ H) :
    cv_splits N H =
      (List.range' 1 (N / H - 1)).map fun i =>
        (List.range' 0 (N - H * i), List.range' (N - H * i) H) := by
  unfold cv_splits
  apply List.map_congr_left
  intro i hi
  rw [List.mem_range'_1] at hi
  obtain ⟨j, rfl⟩ : ∃ j, i = j + 1 := ⟨i - 1, by omega⟩
  have hdiv : j + 2 ≤ N / H := by omega
  have hjN : H * (j + 1) + H ≤ N := mul_succ_le_of_le_div N H (j + 1) (by omega)
  have e1 : H * (j + 1) = H * j + H := by ring
  have htrain : sliceUpToNeg (List.range N) (H * (j + 1)) =
      List.range' 0 (N - H * (j + 1)) := by
    unfold sliceUpToNeg
    rw [List.length_range, List.take_range, List.range_eq_range']
    congr 1
    omega
  rw [htrain]
  cases j with
  | zero =>
    rw [if_neg (by omega)]
    unfold sliceFromNeg
    rw [if_neg (by omega), List.length_range, drop_range]
    have a1 : H * (0 + 1) = H := by ring
    have a2 : N - (N - H) = H := by omega
    rw [a1, a2]
  | succ m =>
    rw [if_pos (by omega)]
    unfold sliceNegNeg
    have e2 : H * (m + 1 + 1 - 1) = H * (m + 1) := by congr 1
    have e3 : H * (m + 1) + H = H * (m + 1 + 1) := by ring
    rw [e2, List.length_range, List.take_range, drop_range]
    have e4 : min (N - H * (m + 1)) N = N - H * (m + 1) := by omega
    have a1 : N - H * (m + 1) - (N - H * (m + 1 + 1)) = H := by omega
    rw [e4, a1]

theorem cv_splits_length (N H : Nat) : (cv_splits N H).length = N / H - 1 := by
  simp [cv_splits]

theorem cv_splits_getD (N H k : Nat) (hH : 1 ≤ H) (hk : k < (cv_splits N H).length) :
    (cv_splits N H).getD k ([], []) =
      (List.range' 0 (N - H * (k + 1)), List.range' (N - H * (k + 1)) H) := by
  have hk' : k < N / H - 1 := by rw [cv_splits_length] at hk; exact hk
  rw [cv_splits_eq N H hH, List.getD_eq_getElem?_getD, List.getElem?_map,
    List.getElem?_range' 1 1 hk']
  simp only [Option.map_some', Option.getD_some]
  have e : 1 + 1 * k = k + 1 := by ring
  rw [e]

theorem cv_splits_bounds (N H k : Nat) (hH : 1 ≤ H) (hk : k < (cv_splits N H).length) :
    H + N % H ≤ N - H * (k + 1) ∧ H * (k + 1) + H + N % H ≤ N := by
  rw [cv_splits_length] at hk
  have h2 : k + 2 ≤ N / H := by omega
  have h3 : H * (k + 2) ≤ H * (N / H) := Nat.mul_le_mul_left H h2
  have e : H * (N / H) + N % H = N := Nat.div_add_mod N H
  have e2 : H * (k + 2) = H * (k + 1) + H := by ring
  omega

/-- C1: for 1 ≤ H < N, split k of the rolling-origin splitter has train
window [0, N − H·(k+1)) and test window [N − H·(k+1), N − H·k) (so the test
window has length exactly H, and the train window ends exactly where the
test window starts). -/
theorem C1_split_windows (N H k : Nat) (hH : 1 ≤ H) (hN : H < N)
    (hk : k < (cv_splits N H).length) :
    (cv_splits N H).getD k ([], []) =
      (List.range' 0 (N - H * (k + 1)), List.range' (N - H * (k + 1)) H) ∧
    ((cv_splits N H).getD k ([], [])).2.length = H ∧
    N - H * (k + 1) + H = N - H * k := by
  have h := cv_splits_getD N H k hH hk
  have hb := cv_splits_bounds N H k hH hk
  refine ⟨h, by rw [h]; simp, ?_⟩
  have e2 : H * (k + 1) = H * k + H := by ring
  omega

/-- C1 witness at N = 5, H = 2, k = 0. -/
theorem C1_split_windows_witness :
    (1 ≤ 2 ∧ 2 < 5 ∧ 0 < (cv_splits 5 2).length) ∧
    ((cv_splits 5 2).getD 0 ([], []) =
      (List.range' 0 (5 - 2 * (0 + 1)), List.range' (5 - 2 * (0 + 1)) 2) ∧
     ((cv_splits 5 2).getD 0 ([], [])).2.length = 2 ∧
     5 - 2 * (0 + 1) + 2 = 5 - 2 * 0) :=
  ⟨⟨by decide, by decide, by decide⟩,
   C1_split_windows 5 2 0 (by decide) (by decide) (by decide)⟩

/-- C2: for 1 ≤ H < N the number of splits equals floor(N/H) − 1, and in
particular when N < 2H the splitter yields the empty list (the embedding is
a total function: no error is raised). -/
theorem C2_split_count (N H : Nat) (hH : 1 ≤ H) (hN : H < N) :
    (cv_splits N H).length = N / H - 1 ∧ (N < 2 * H → cv_splits N H = []) := by
  refine ⟨cv_splits_length N H, fun h2 => ?_⟩
  have hlt : N / H < 2 := by
    rw [Nat.div_lt_iff_lt_mul (by omega)]
    omega
  have hz : N / H - 1 = 0 := by omega
  unfold cv_splits
  rw [hz]
  simp

/-- C2 witness at N = 3, H = 2 (the N < 2H edge case). -/
theorem C2_split_count_witness :
    (1 ≤ 2 ∧ 2 < 3) ∧
    ((cv_splits 3 2).length = 3 / 2 - 1 ∧ (3 < 2 * 2 → cv_splits 3 2 = [])) :=
  ⟨⟨by decide, by decide⟩, C2_split_count 3 2 (by decide) (by decide)⟩

theorem zipWith_sub_sq_sum (pred actual : List ℚ) (N : Nat)
    (hp : pred.length = N) (ha : actual.length = N) :
    ((List.zipWith (fun p a => p - a) pred actual).map fun r => r * r).sum =
      ∑ i ∈ Finset.range N, (actual.getD i 0 - pred.getD i 0) ^ 2 := by
  induction pred generalizing actual N with
  | nil =>
    simp at hp
    subst hp
    simp
  | cons p ps ih =>
    cases actual with
    | nil => simp at hp ha; omega
    | cons a as =>
      cases N with
      | zero => simp at hp
      | succ n =>
        simp only [List.zipWith_cons_cons, List.map_cons, List.sum_cons]
        rw [Finset.sum_range_succ']
        simp only [List.getD_cons_succ, List.getD_cons_zero]
        rw [ih as n (by simpa using hp) (by simpa using ha)]
        ring

/-- C3: for equal-length inputs of length N ≥ 1, get_rmse(pred, actual)
equals sqrt((1/N) · Σ_i (actual[i] − pred[i])²). -/
theorem C3_rmse (pred actual : List ℚ) (N : Nat) (hN : 1 ≤ N)
    (hp : pred.length = N) (ha : actual.length = N) :
    get_rmse pred actual =
      Real.sqrt ((1 / (N : ℝ)) *
        ∑ i ∈ Finset.range N, ((actual.getD i 0 : ℝ) - (pred.getD i 0 : ℝ)) ^ 2) := by
  unfold get_rmse
  have hlen : (List.zipWith (fun p a => p - a) pred actual).length = N := by
    rw [List.length_zipWith, hp, ha, Nat.min_self]
  rw [hlen, zipWith_sub_sq_sum pred actual N hp ha]
  congr 1
  push_cast
  ring

/-- C3 witness at pred = [1, 2], actual = [4, 6], N = 2. -/
theorem C3_rmse_witness :
    (1 ≤ 2 ∧ ([(1 : ℚ), 2]).length = 2 ∧ ([(4 : ℚ), 6]).length = 2) ∧
    get_rmse [(1 : ℚ), 2] [(4 : ℚ), 6] =
      Real.sqrt ((1 / (2 : ℝ)) *
        ∑ i ∈ Finset.range 2,
          ((([(4 : ℚ), 6]).getD i 0 : ℝ) - (([(1 : ℚ), 2]).getD i 0 : ℝ)) ^ 2) :=
  ⟨⟨by decide, by decide, by decide⟩,
   C3_rmse [(1 : ℚ), 2] [(4 : ℚ), 6] 2 (by decide) (by decide) (by decide)⟩

/-- C4 counterexample: on train = [1] and horizon H = 3 (so len(train) < H),
naive_seasonal_forecast does not fail: the Python slice
`list(train)[-3:]` returns the whole train `[1]` (a defined value, of length
1 ≠ H), so the claimed InsufficientHistoryError behaviour does not occur. -/
theorem C4_counterexample :
    naive_seasonal_forecast [(1 : ℚ)] 3 = [(1 : ℚ)] ∧
    ([(1 : ℚ)]).length < 3 ∧ (naive_seasonal_forecast [(1 : ℚ)] 3).length ≠ 3 := by
  decide

/-- C4 amended: when len(train) ≥ H the seasonal-naive forecaster returns a
length-H forecast whose value at offset i equals train's value at position
len(train) − H + i; when len(train) < H it does not fail but returns the
whole train (of length len(train) < H). -/
theorem C4_amended_seasonal (train : List ℚ) (H : Nat) (hH : 1 ≤ H) :
    (H ≤ train.length →
      (naive_seasonal_forecast train H).length = H ∧
      ∀ i, i < H →
        (naive_seasonal_forecast train H).getD i 0 =
          train.getD (train.length - H + i) 0) ∧
    (train.length < H → naive_seasonal_forecast train H = train) := by
  unfold naive_seasonal_forecast sliceFromNeg
  rw [if_neg (by omega)]
  constructor
  · intro hle
    refine ⟨by rw [List.length_drop]; omega, ?_⟩
    intro i hi
    rw [List.getD_eq_getElem?_getD, List.getElem?_drop, ← List.getD_eq_getElem?_getD]
  · intro hlt
    have hz : train.length - H = 0 := by omega
    rw [hz, List.drop_zero]

/-- C4 amended witness at train = [1, 2, 3], H = 2. -/
theorem C4_amended_seasonal_witness :
    (1 ≤ 2) ∧
    ((2 ≤ ([(1 : ℚ), 2, 3]).length →
      (naive_seasonal_forecast [(1 : ℚ), 2, 3] 2).length = 2 ∧
      ∀ i, i < 2 →
        (naive_seasonal_forecast [(1 : ℚ), 2, 3] 2).getD i 0 =
          ([(1 : ℚ), 2, 3]).getD (([(1 : ℚ), 2, 3]).length - 2 + i) 0) ∧
     (([(1 : ℚ), 2, 3]).length < 2 → naive_seasonal_forecast [(1 : ℚ), 2, 3] 2 = [(1 : ℚ), 2, 3])) :=
  ⟨by decide, C4_amended_seasonal [(1 : ℚ), 2, 3] 2 (by decide)⟩

/-- C5: on a non-empty train window, avg_forecast returns a length-H
sequence each of whose entries is the arithmetic mean of train, and
naive_forecast returns a length-H sequence each of whose entries is the last
value of train. -/
theorem C5_avg_naive (train : List ℚ) (H : Nat) (hne : train ≠ []) :
    (avg_forecast train H).length = H ∧
    (∀ x ∈ avg_forecast train H, x = some (train.sum / (train.length : ℚ))) ∧
    ∃ l, naive_forecast train H = some l ∧ l.length = H ∧
      ∀ x ∈ l, x = train.getLast hne := by
  refine ⟨by simp [avg_forecast], ?_, ?_⟩
  · intro x hx
    rw [avg_forecast] at hx
    rw [List.eq_of_mem_replicate hx]
    unfold seriesMean
    rw [if_neg (by simpa using hne)]
  · refine ⟨List.replicate H (train.getLast hne), ?_, by simp, ?_⟩
    · unfold naive_forecast
      rw [List.getLast?_eq_getLast train hne]
      rfl
    · intro x hx
      exact List.eq_of_mem_replicate hx

/-- C5 witness at train = [2, 4], H = 3. -/
theorem C5_avg_naive_witness :
    ([(2 : ℚ), 4] ≠ []) ∧
    ((avg_forecast [(2 : ℚ), 4] 3).length = 3 ∧
     (∀ x ∈ avg_forecast [(2 : ℚ), 4] 3,
        x = some (([(2 : ℚ), 4]).sum / (([(2 : ℚ), 4]).length : ℚ))) ∧
     ∃ l, naive_forecast [(2 : ℚ), 4] 3 = some l ∧ l.length = 3 ∧
       ∀ x ∈ l, x = ([(2 : ℚ), 4]).getLast (by decide)) :=
  ⟨by decide, C5_avg_naive [(2 : ℚ), 4] 3 (by decide)⟩

/-- C6 counterexample: at N = 5, H = 2 we have N mod H = 1 ≠ 0 and a single
split, whose training window contains index 0 — the leftover value at the
start of the series is inside the training window, not dropped from it. -/
theorem C6_counterexample :
    5 % 2 ≠ 0 ∧ 0 < (cv_splits 5 2).length ∧
    ∀ s ∈ cv_splits 5 2, (0 : Nat) ∈ s.1 := by decide

/-- C6 amended: the leftover first N mod H positions of the series are
included in every training window the splitter emits (training windows are
always prefixes of the series); what the splitter drops is only a further
split whose test block would dip into the leftover region. -/
theorem C6_amended_leftover (N H k j : Nat) (hH : 1 ≤ H)
    (hk : k < (cv_splits N H).length) (hj : j < N % H) :
    j ∈ ((cv_splits N H).getD k ([], [])).1 := by
  rw [cv_splits_getD N H k hH hk]
  have hb := (cv_splits_bounds N H k hH hk).1
  rw [List.mem_range'_1]
  omega

/-- C6 amended witness at N = 5, H = 2, k = 0, j = 0. -/
theorem C6_amended_leftover_witness :
    (1 ≤ 2 ∧ 0 < (cv_splits 5 2).length ∧ 0 < 5 % 2) ∧
    0 ∈ ((cv_splits 5 2).getD 0 ([], [])).1 :=
  ⟨⟨by decide, by decide, by decide⟩,
   C6_amended_leftover 5 2 0 0 (by decide) (by decide) (by decide)⟩

/-- C8 counterexample: with series = [1, 2, 3] and horizon 2 we have
N = 3 < 2·H = 4; the splitter yields no splits and the notebook's
aggregation np.mean([]) yields NaN (modelled as none) — a returned value,
not a raised InsufficientDataError. -/
theorem C8_counterexample :
    cv_splits 3 2 = [] ∧ evaluate_avg [(1 : ℚ), 2, 3] 2 = none := by
  constructor
  · decide
  · unfold evaluate_avg npMeanN npMean avg_rmses
    have h : cv_splits ([(1 : ℚ), 2, 3]).length 2 = [] := by decide
    rw [h]
    rfl

/-- C8 amended: whenever the splitter produces no splits, the per-split
error list is empty and the notebook's mean aggregation returns NaN
(modelled as none) for each of the three methods, rather than failing. -/
theorem C8_amended_no_splits (series : List ℚ) (H : Nat)
    (h : cv_splits series.length H = []) :
    avg_rmses series H = [] ∧ evaluate_avg series H = none ∧
    npMeanN (naive_rmses series H) = none ∧
    npMean (seasonal_rmses series H) = none := by
  unfold evaluate_avg npMeanN npMean avg_rmses naive_rmses seasonal_rmses
  rw [h]
  refine ⟨rfl, rfl, rfl, rfl⟩

/-- C8 amended witness at series = [1, 2, 3], H = 2. -/
theorem C8_amended_no_splits_witness :
    cv_splits ([(1 : ℚ), 2, 3]).length 2 = [] ∧
    (avg_rmses [(1 : ℚ), 2, 3] 2 = [] ∧ evaluate_avg [(1 : ℚ), 2, 3] 2 = none ∧
     npMeanN (naive_rmses [(1 : ℚ), 2, 3] 2) = none ∧
     npMean (seasonal_rmses [(1 : ℚ), 2, 3] 2) = none) :=
  ⟨by decide, C8_amended_no_splits [(1 : ℚ), 2, 3] 2 (by decide)⟩

/-- C9 counterexample: on an empty train window and H = 3, naive_forecast
fails (none, the IndexError of list(train)[-1]), but avg_forecast does not
fail: it returns the length-3 array whose entries are all NaN (none), because
pandas' mean of an empty series is NaN, not an error. -/
theorem C9_counterexample :
    naive_forecast ([] : List ℚ) 3 = none ∧
    avg_forecast ([] : List ℚ) 3 = [none, none, none] := by
  constructor <;> rfl

/-- C9 amended: for every requested test length H, the naive forecaster
fails on a zero-length train window (the IndexError of list(train)[-1]),
while the average forecaster does not fail: it returns a length-H forecast
every entry of which is NaN (the mean of an empty series). -/
theorem C9_amended_empty_train (H : Nat) :
    naive_forecast ([] : List ℚ) H = none ∧
    avg_forecast ([] : List ℚ) H = List.replicate H none := by
  constructor <;> rfl

theorem cv_splits_mem (N H : Nat) (hH : 1 ≤ H) (tr te : List Nat)
    (h : (tr, te) ∈ cv_splits N H) :
    ∃ L, tr = List.range' 0 L ∧ te = List.range' L H ∧
      H + N % H ≤ L ∧ L + H ≤ N := by
  rw [cv_splits_eq N H hH, List.mem_map] at h
  obtain ⟨i, hi, heq⟩ := h
  rw [List.mem_range'_1] at hi
  obtain ⟨h1, h2⟩ := Prod.mk.injEq .. ▸ heq
  rw [eq_comm] at h1 h2
  have hd : i + 1 ≤ N / H := by omega
  have h3 : H * (i + 1) ≤ H * (N / H) := Nat.mul_le_mul_left H hd
  have e : H * (N / H) + N % H = N := Nat.div_add_mod N H
  have e2 : H * (i + 1) = H * i + H := by ring
  have hone : H * 1 ≤ H * i := Nat.mul_le_mul_left H (by omega)
  have e3 : H * 1 = H := by ring
  exact ⟨N - H * i, h1, h2, by omega, by omega⟩

theorem selectVals_length (series : List ℚ) (idx : List Nat) :
    (selectVals series idx).length = idx.length := by
  unfold selectVals
  rw [List.length_map]

theorem selectVals_const (N : Nat) (c : ℚ) (idx : List Nat) (h : ∀ j ∈ idx, j < N) :
    selectVals (List.replicate N c) idx = List.replicate idx.length c := by
  unfold selectVals
  induction idx with
  | nil => rfl
  | cons j js ih =>
    rw [List.map_cons, List.length_cons, List.replicate_succ]
    have hj : j < N := h j (by simp)
    rw [List.getD_eq_getElem?_getD, List.getElem?_replicate, if_pos hj]
    rw [ih fun x hx => h x (by simp [hx])]
    rfl

theorem seriesMean_replicate (L : Nat) (c : ℚ) (hL : 1 ≤ L) :
    seriesMean (List.replicate L c) = some c := by
  unfold seriesMean
  have hL0 : (L : ℚ) ≠ 0 := Nat.cast_ne_zero.mpr (by omega)
  rw [if_neg (by simp [List.isEmpty_iff]; omega)]
  rw [List.sum_replicate, List.length_replicate, nsmul_eq_mul,
    mul_div_cancel_left₀ _ hL0]

theorem getLast?_replicate_succ (n : Nat) (c : ℚ) :
    (List.replicate (n + 1) c).getLast? = some c := by
  induction n with
  | zero => rfl
  | succ k ih =>
    rw [List.replicate_succ, List.replicate_succ, List.getLast?_cons_cons,
      ← List.replicate_succ]
    exact ih

theorem seasonal_replicate (L H : Nat) (c : ℚ) (hH : 1 ≤ H) (hHL : H ≤ L) :
    naive_seasonal_forecast (List.replicate L c) H = List.replicate H c := by
  unfold naive_seasonal_forecast sliceFromNeg
  rw [if_neg (by omega), List.length_replicate, List.drop_replicate]
  congr 1
  omega

theorem seasonal_length (train : List ℚ) (H : Nat) (hH : 1 ≤ H)
    (hle : H ≤ train.length) :
    (naive_seasonal_forecast train H).length = H := by
  unfold naive_seasonal_forecast sliceFromNeg
  rw [if_neg (by omega), List.length_drop]
  omega

theorem naive_forecast_isSome (train : List ℚ) (H : Nat) (hne : train ≠ []) :
    (naive_forecast train H).isSome = true := by
  unfold naive_forecast
  rw [List.getLast?_eq_getLast train hne]
  rfl

theorem avg_forecast_isSome (train : List ℚ) (H : Nat) (hne : train ≠ []) :
    ∀ x ∈ avg_forecast train H, x.isSome = true := by
  intro x hx
  rw [avg_forecast] at hx
  rw [List.eq_of_mem_replicate hx]
  unfold seriesMean
  rw [if_neg (by simpa using hne)]
  rfl

theorem get_rmse_self (l : List ℚ) : get_rmse l l = 0 := by
  unfold get_rmse
  have hz : List.zipWith (fun p a => p - a) l l = List.replicate l.length 0 := by
    induction l with
    | nil => rfl
    | cons x xs ih => simp [List.replicate_succ, ih]
  rw [hz]
  simp

theorem npMean_all_zero (xs : List ℝ) (hne : xs ≠ []) (h : ∀ e ∈ xs, e = 0) :
    npMean xs = some 0 := by
  unfold npMean
  rw [if_neg (by simpa using hne), List.sum_eq_zero h]
  simp

theorem npMeanN_all_zero (xs : List (Option ℝ)) (hne : xs ≠ [])
    (h : ∀ e ∈ xs, e = some 0) : npMeanN xs = some 0 := by
  unfold npMeanN
  have hall : (xs.all fun o => o.isSome) = true := by
    rw [List.all_eq_true]
    intro o ho
    rw [h o ho]
    rfl
  rw [if_pos hall]
  apply npMean_all_zero
  · simpa using hne
  · intro e he
    rw [List.mem_map] at he
    obtain ⟨o, ho, rfl⟩ := he
    rw [h o ho]
    rfl

theorem split_const_facts (N H : Nat) (c : ℚ) (hH : 1 ≤ H) (tr te : List Nat)
    (h : (tr, te) ∈ cv_splits N H) :
    ∃ L, 1 ≤ L ∧ H ≤ L ∧ te.length = H ∧
      selectVals (List.replicate N c) tr = List.replicate L c ∧
      selectVals (List.replicate N c) te = List.replicate H c := by
  obtain ⟨L, htr, hte, hb1, hb2⟩ := cv_splits_mem N H hH tr te h
  refine ⟨L, by omega, by omega, by rw [hte]; simp, ?_, ?_⟩
  · rw [htr, selectVals_const N c _ fun j hj => by rw [List.mem_range'_1] at hj; omega]
    simp
  · rw [hte, selectVals_const N c _ fun j hj => by rw [List.mem_range'_1] at hj; omega]
    simp

/-- C7: on a constant series (every value c) with any horizon H ≥ 1 for
which at least one split exists, each of the three methods has per-split
error 0 on every split, and the mean error of each method is 0. -/
theorem C7_constant_series (N H : Nat) (c : ℚ) (hH : 1 ≤ H)
    (hne : cv_splits N H ≠ []) :
    (∀ e ∈ avg_rmses (List.replicate N c) H, e = some 0) ∧
    (∀ e ∈ naive_rmses (List.replicate N c) H, e = some 0) ∧
    (∀ e ∈ seasonal_rmses (List.replicate N c) H, e = 0) ∧
    npMeanN (avg_rmses (List.replicate N c) H) = some 0 ∧
    npMeanN (naive_rmses (List.replicate N c) H) = some 0 ∧
    npMean (seasonal_rmses (List.replicate N c) H) = some 0 := by
  have havg : ∀ e ∈ avg_rmses (List.replicate N c) H, e = some 0 := by
    intro e he
    unfold avg_rmses at he
    simp only [List.length_replicate] at he
    rw [List.mem_map] at he
    obtain ⟨⟨tr, te⟩, hs, rfl⟩ := he
    obtain ⟨L, hL1, hLH, hteH, htrv, htev⟩ := split_const_facts N H c hH tr te hs
    simp only [htrv, htev, hteH]
    unfold avg_forecast
    rw [seriesMean_replicate L c hL1]
    unfold get_rmse_nan
    rw [if_pos (by rw [List.all_eq_true]; intro o ho; rw [List.eq_of_mem_replicate ho]; rfl)]
    rw [List.map_replicate]
    have : (some c).getD 0 = c := rfl
    rw [this, get_rmse_self]
  have hnaive : ∀ e ∈ naive_rmses (List.replicate N c) H, e = some 0 := by
    intro e he
    unfold naive_rmses at he
    simp only [List.length_replicate] at he
    rw [List.mem_map] at he
    obtain ⟨⟨tr, te⟩, hs, rfl⟩ := he
    obtain ⟨L, hL1, hLH, hteH, htrv, htev⟩ := split_const_facts N H c hH tr te hs
    simp only [htrv, htev, hteH]
    unfold naive_forecast
    obtain ⟨m, rfl⟩ : ∃ m, L = m + 1 := ⟨L - 1, by omega⟩
    rw [getLast?_replicate_succ]
    simp only [Option.map_some']
    rw [get_rmse_self]
  have hseason : ∀ e ∈ seasonal_rmses (List.replicate N c) H, e = 0 := by
    intro e he
    unfold seasonal_rmses at he
    simp only [List.length_replicate] at he
    rw [List.mem_map] at he
    obtain ⟨⟨tr, te⟩, hs, rfl⟩ := he
    obtain ⟨L, hL1, hLH, hteH, htrv, htev⟩ := split_const_facts N H c hH tr te hs
    simp only [htrv, htev, hteH]
    rw [seasonal_replicate L H c hH hLH, get_rmse_self]
  have hne1 : avg_rmses (List.replicate N c) H ≠ [] := by
    unfold avg_rmses
    simp only [List.length_replicate, ne_eq, List.map_eq_nil_iff]
    exact hne
  have hne2 : naive_rmses (List.replicate N c) H ≠ [] := by
    unfold naive_rmses
    simp only [List.length_replicate, ne_eq, List.map_eq_nil_iff]
    exact hne
  have hne3 : seasonal_rmses (List.replicate N c) H ≠ [] := by
    unfold seasonal_rmses
    simp only [List.length_replicate, ne_eq, List.map_eq_nil_iff]
    exact hne
  exact ⟨havg, hnaive, hseason, npMeanN_all_zero _ hne1 havg,
    npMeanN_all_zero _ hne2 hnaive, npMean_all_zero _ hne3 hseason⟩

/-- C7 witness at N = 4, H = 2, c = 5. -/
theorem C7_constant_series_witness :
    (1 ≤ 2 ∧ cv_splits 4 2 ≠ []) ∧
    ((∀ e ∈ avg_rmses (List.replicate 4 (5 : ℚ)) 2, e = some 0) ∧
     (∀ e ∈ naive_rmses (List.replicate 4 (5 : ℚ)) 2, e = some 0) ∧
     (∀ e ∈ seasonal_rmses (List.replicate 4 (5 : ℚ)) 2, e = 0) ∧
     npMeanN (avg_rmses (List.replicate 4 (5 : ℚ)) 2) = some 0 ∧
     npMeanN (naive_rmses (List.replicate 4 (5 : ℚ)) 2) = some 0 ∧
     npMean (seasonal_rmses (List.replicate 4 (5 : ℚ)) 2) = some 0) :=
  ⟨⟨by decide, by decide⟩, C7_constant_series 4 2 5 (by decide) (by decide)⟩

/-- C10: for every series and every split index k the splitter emits, the
training window is non-empty, has length series.length − H·(k+1), which is
at least H + (series.length mod H) (hence at least H); consequently the
seasonal-naive forecaster applied to that training window returns a forecast
of length exactly H, the naive forecaster succeeds, and every entry of the
average forecast is a numeric value (no NaN). -/
theorem C10_train_invariant (series : List ℚ) (H k : Nat) (hH : 1 ≤ H)
    (hk : k < (cv_splits series.length H).length) :
    ((cv_splits series.length H).getD k ([], [])).1.length
        = series.length - H * (k + 1) ∧
    H + series.length % H ≤ ((cv_splits series.length H).getD k ([], [])).1.length ∧
    ((cv_splits series.length H).getD k ([], [])).1 ≠ [] ∧
    ((cv_splits series.length H).getD k ([], [])).2.length = H ∧
    (naive_seasonal_forecast
        (selectVals series ((cv_splits series.length H).getD k ([], [])).1)
        ((cv_splits series.length H).getD k ([], [])).2.length).length = H ∧
    (naive_forecast
        (selectVals series ((cv_splits series.length H).getD k ([], [])).1)
        ((cv_splits series.length H).getD k ([], [])).2.length).isSome = true ∧
    ∀ x ∈ avg_forecast
        (selectVals series ((cv_splits series.length H).getD k ([], [])).1)
        ((cv_splits series.length H).getD k ([], [])).2.length, x.isSome = true := by
  have h := cv_splits_getD series.length H k hH hk
  have hb := cv_splits_bounds series.length H k hH hk
  rw [h]
  have htr : (selectVals series (List.range' 0 (series.length - H * (k + 1)))).length
      = series.length - H * (k + 1) := by
    rw [selectVals_length, List.length_range']
  have htrne : selectVals series (List.range' 0 (series.length - H * (k + 1))) ≠ [] := by
    rw [← List.length_pos_iff_ne_nil, htr]
    omega
  refine ⟨?_, ?_, ?_, ?_, ?_, ?_, ?_⟩
  · show (List.range' 0 (series.length - H * (k + 1))).length
        = series.length - H * (k + 1)
    rw [List.length_range']
  · show H + series.length % H ≤ (List.range' 0 (series.length - H * (k + 1))).length
    rw [List.length_range']
    omega
  · show List.range' 0 (series.length - H * (k + 1)) ≠ []
    rw [← List.length_pos_iff_ne_nil, List.length_range']
    omega
  · show (List.range' (series.length - H * (k + 1)) H).length = H
    rw [List.length_range']
  · show (naive_seasonal_forecast
        (selectVals series (List.range' 0 (series.length - H * (k + 1))))
        (List.range' (series.length - H * (k + 1)) H).length).length = H
    rw [List.length_range']
    exact seasonal_length _ _ hH (by rw [htr]; omega)
  · exact naive_forecast_isSome _ _ htrne
  · exact avg_forecast_isSome _ _ htrne

/-- C10 witness at series = [1, 2, 3, 4], H = 2, k = 0. -/
theorem C10_train_invariant_witness :
    (1 ≤ 2 ∧ 0 < (cv_splits ([(1 : ℚ), 2, 3, 4]).length 2).length) ∧
    (((cv_splits ([(1 : ℚ), 2, 3, 4]).length 2).getD 0 ([], [])).1.length
        = ([(1 : ℚ), 2, 3, 4]).length - 2 * (0 + 1) ∧
     2 + ([(1 : ℚ), 2, 3, 4]).length % 2 ≤
        ((cv_splits ([(1 : ℚ), 2, 3, 4]).length 2).getD 0 ([], [])).1.length ∧
     ((cv_splits ([(1 : ℚ), 2, 3, 4]).length 2).getD 0 ([], [])).1 ≠ [] ∧
     ((cv_splits ([(1 : ℚ), 2, 3, 4]).length 2).getD 0 ([], [])).2.length = 2 ∧
     (naive_seasonal_forecast
        (selectVals [(1 : ℚ), 2, 3, 4]
          ((cv_splits ([(1 : ℚ), 2, 3, 4]).length 2).getD 0 ([], [])).1)
        ((cv_splits ([(1 : ℚ), 2, 3, 4]).length 2).getD 0 ([], [])).2.length).length = 2 ∧
     (naive_forecast
        (selectVals [(1 : ℚ), 2, 3, 4]
          ((cv_splits ([(1 : ℚ), 2, 3, 4]).length 2).getD 0 ([], [])).1)
        ((cv_splits ([(1 : ℚ), 2, 3, 4]).length 2).getD 0 ([], [])).2.length).isSome = true ∧
     ∀ x ∈ avg_forecast
        (selectVals [(1 : ℚ), 2, 3, 4]
          ((cv_splits ([(1 : ℚ), 2, 3, 4]).length 2).getD 0 ([], [])).1)
        ((cv_splits ([(1 : ℚ), 2, 3, 4]).length 2).getD 0 ([], [])).2.length, x.isSome = true) :=
  ⟨⟨by decide, by decide⟩, C10_train_invariant [(1 : ℚ), 2, 3, 4] 2 0 (by decide) (by decide)⟩
